import Mathlib

/-!
Verification of the partition-and-reconstruct geometry engine and the
connected-component post-processing stage of a 3D medical-image
segmentation toolkit, shallowly embedded from
`segmentation3d/dataloader/image_tools.py`.

Modelling conventions:
* Python floats are modelled as exact rationals (`ℚ`); `int(x)` is
  truncation toward zero (`pyInt`), so `int(x + 0.5)` is `pyInt (x + 1/2)`.
* Python integer `%` and `//` with a positive divisor agree with `Int.emod`
  and `Int.ediv`.
* Fallible Python code (exceptions) is embedded in `Except PyErr`.
* Voxel data of an image is a total function on `ℤ`-indexed coordinates;
  only indices inside the image bounds are meaningful.
-/

namespace MedSeg

/-- A triple of per-axis values (x, y, z voxel order, as SimpleITK uses). -/
structure V3 (α : Type) where
  x : α
  y : α
  z : α
deriving DecidableEq, Repr

/-- Axis projection of a `V3`. -/
def V3.nth {α : Type} (v : V3 α) : Fin 3 → α
  | 0 => v.x
  | 1 => v.y
  | 2 => v.z

/-- Errors the embedded Python code can raise.  `emptyLabelSet` is the
designated error named by the spec's error taxonomy; the code itself never
raises it (it is included so that statements can distinguish the designated
error from incidental failures). -/
inductive PyErr where
  | zeroDivisionError : PyErr
  | indexError : PyErr
  | valueError : String → PyErr
  | emptyLabelSet : PyErr
deriving DecidableEq, Repr

/-- Python `int(x)`: truncation toward zero. -/
def pyInt (x : ℚ) : ℤ := if 0 ≤ x then ⌊x⌋ else ⌈x⌉

/-- Round `b` up to the next multiple of `m` when it is not already a
multiple, as in the source:
`if b % m: b = m * (b // m + 1)`. -/
def roundUpToMultiple (b : ℤ) (m : ℕ) : ℤ :=
  if b % (m : ℤ) ≠ 0 then (m : ℤ) * (b / (m : ℤ) + 1) else b

/-- `box_size` of `image_partition_by_fixed_size`:
`int(partition_size / spacing + 0.5)`, rounded up to a multiple of
`max_stride`. -/
def derivedBoxSize (image_spacing partition_size : V3 ℚ) (max_stride : ℕ) : V3 ℤ :=
  ⟨roundUpToMultiple (pyInt (partition_size.x / image_spacing.x + 1/2)) max_stride,
   roundUpToMultiple (pyInt (partition_size.y / image_spacing.y + 1/2)) max_stride,
   roundUpToMultiple (pyInt (partition_size.z / image_spacing.z + 1/2)) max_stride⟩

/-- `stride_size` of `image_partition_by_fixed_size`:
`int(partition_stride / spacing + 0.5)` (not rounded to `max_stride`). -/
def derivedStrideSize (image_spacing partition_stride : V3 ℚ) : V3 ℤ :=
  ⟨pyInt (partition_stride.x / image_spacing.x + 1/2),
   pyInt (partition_stride.y / image_spacing.y + 1/2),
   pyInt (partition_stride.z / image_spacing.z + 1/2)⟩

/-- `num_partitions` along one axis:
`int(np.ceil((image_size - box_size) / stride_size + 1))`. -/
def numPartitionsAxis (n : ℕ) (box stride : ℤ) : ℤ :=
  ⌈((n : ℚ) - (box : ℚ)) / (stride : ℚ) + 1⌉

/-- Start of the window with loop index `k` along one axis, after the
boundary clamp `if end > n: end = n; start = end - box`. -/
def axisStart (n : ℕ) (box stride : ℤ) (k : ℕ) : ℤ :=
  if (k : ℤ) * stride + box > (n : ℤ) then (n : ℤ) - box else (k : ℤ) * stride

/-- End of the window with loop index `k` along one axis, after the
boundary clamp. -/
def axisEnd (n : ℕ) (box stride : ℤ) (k : ℕ) : ℤ :=
  if (k : ℤ) * stride + box > (n : ℤ) then (n : ℤ) else (k : ℤ) * stride + box

/-- One window `(start_voxel, end_voxel)` (exclusive end) produced by the
partition planner. -/
structure Window where
  start_voxel : V3 ℤ
  end_voxel : V3 ℤ
deriving DecidableEq, Repr

/-- Window at loop indices `(ix, iy, iz)` of the triple loop of
`image_partition_by_fixed_size`. -/
def partitionWindow (image_size : V3 ℕ) (box stride : V3 ℤ) (ix iy iz : ℕ) : Window :=
  ⟨⟨axisStart image_size.x box.x stride.x ix,
    axisStart image_size.y box.y stride.y iy,
    axisStart image_size.z box.z stride.z iz⟩,
   ⟨axisEnd image_size.x box.x stride.x ix,
    axisEnd image_size.y box.y stride.y iy,
    axisEnd image_size.z box.z stride.z iz⟩⟩

/-- Embedding of `image_partition_by_fixed_size` (image_tools.py, lines
160-193).  The image enters only through its size and spacing (its origin
is read but unused by the source).  Python raises `ZeroDivisionError` when
a spacing component is zero (float division), when `max_stride` is zero
(`box_size % max_stride`), or when a derived stride component is zero
(integer division in `num_partitions`); these are the `.error` branches. -/
def image_partition_by_fixed_size (image_size : V3 ℕ)
    (image_spacing partition_size partition_stride : V3 ℚ) (max_stride : ℕ) :
    Except PyErr (List Window) :=
  if image_spacing.x = 0 ∨ image_spacing.y = 0 ∨ image_spacing.z = 0 then
    Except.error PyErr.zeroDivisionError
  else if max_stride = 0 then
    Except.error PyErr.zeroDivisionError
  else if (derivedStrideSize image_spacing partition_stride).x = 0 ∨
      (derivedStrideSize image_spacing partition_stride).y = 0 ∨
      (derivedStrideSize image_spacing partition_stride).z = 0 then
    Except.error PyErr.zeroDivisionError
  else
    Except.ok ((List.range (numPartitionsAxis image_size.x
        (derivedBoxSize image_spacing partition_size max_stride).x
        (derivedStrideSize image_spacing partition_stride).x).toNat).flatMap fun ix =>
      (List.range (numPartitionsAxis image_size.y
        (derivedBoxSize image_spacing partition_size max_stride).y
        (derivedStrideSize image_spacing partition_stride).y).toNat).flatMap fun iy =>
        (List.range (numPartitionsAxis image_size.z
          (derivedBoxSize image_spacing partition_size max_stride).z
          (derivedStrideSize image_spacing partition_stride).z).toNat).map fun iz =>
          partitionWindow image_size (derivedBoxSize image_spacing partition_size max_stride)
            (derivedStrideSize image_spacing partition_stride) ix iy iz)

/-- The eight windows the planner produces for a 5x5x5 grid, unit spacing,
physical tile size 2, physical stride 4, `max_stride = 1` (per-axis windows
`[0,2)` and `[3,5)`, in loop order). -/
def c1Windows : List Window :=
  [⟨⟨0,0,0⟩, ⟨2,2,2⟩⟩, ⟨⟨0,0,3⟩, ⟨2,2,5⟩⟩, ⟨⟨0,3,0⟩, ⟨2,5,2⟩⟩, ⟨⟨0,3,3⟩, ⟨2,5,5⟩⟩,
   ⟨⟨3,0,0⟩, ⟨5,2,2⟩⟩, ⟨⟨3,0,3⟩, ⟨5,2,5⟩⟩, ⟨⟨3,3,0⟩, ⟨5,5,2⟩⟩, ⟨⟨3,3,3⟩, ⟨5,5,5⟩⟩]

/-- The eight windows the planner produces for a 100x100x100 grid, unit
spacing, physical tile size and stride 51.2, `max_stride = 16` (per-axis
windows `[0,64)` and `[36,100)`, in loop order). -/
def c2Windows : List Window :=
  [⟨⟨0,0,0⟩, ⟨64,64,64⟩⟩, ⟨⟨0,0,36⟩, ⟨64,64,100⟩⟩,
   ⟨⟨0,36,0⟩, ⟨64,100,64⟩⟩, ⟨⟨0,36,36⟩, ⟨64,100,100⟩⟩,
   ⟨⟨36,0,0⟩, ⟨100,64,64⟩⟩, ⟨⟨36,0,36⟩, ⟨100,64,100⟩⟩,
   ⟨⟨36,36,0⟩, ⟨100,100,64⟩⟩, ⟨⟨36,36,36⟩, ⟨100,100,100⟩⟩]

/-! ### Connected-component filtering

The SimpleITK primitives used by `pick_largest_connected_component` and
`remove_small_connected_component` are modelled per their documented
semantics (spec section 4.5 / 9): `ConnectedComponentImageFilter` with
`FullyConnected=True` labels maximal 26-connected foreground regions in
raster-scan order, and `RelabelComponent` sorts components by size
(descending, stable) and discards those smaller than a minimum size.
-/

/-- A multi-label volume: a voxel grid size plus integer voxel data
(indices outside the bounds are not meaningful). -/
structure LabelVol where
  size : V3 ℕ
  data : V3 ℤ → ℤ

/-- Whether a voxel index lies inside the image bounds. -/
def inBounds (sz : V3 ℕ) (p : V3 ℤ) : Bool :=
  decide (0 ≤ p.x ∧ p.x < (sz.x : ℤ) ∧ 0 ≤ p.y ∧ p.y < (sz.y : ℤ) ∧
    0 ≤ p.z ∧ p.z < (sz.z : ℤ))

/-- All voxel indices of the grid in raster-scan order (x fastest). -/
def scanIdx (sz : V3 ℕ) : List (V3 ℤ) :=
  (List.range sz.z).flatMap fun (z : ℕ) =>
    (List.range sz.y).flatMap fun (y : ℕ) =>
      (List.range sz.x).map fun (x : ℕ) => ⟨(x : ℤ), (y : ℤ), (z : ℤ)⟩

/-- The 26 neighbor offsets of full (fully-connected) 3D adjacency. -/
def neighborOffsets : List (V3 ℤ) :=
  ([-1, 0, 1] : List ℤ).flatMap fun dx =>
    ([-1, 0, 1] : List ℤ).flatMap fun dy =>
      ([-1, 0, 1] : List ℤ).filterMap fun dz =>
        if dx = 0 ∧ dy = 0 ∧ dz = 0 then none else some ⟨dx, dy, dz⟩

/-- Componentwise addition of voxel indices. -/
def vadd (p q : V3 ℤ) : V3 ℤ := ⟨p.x + q.x, p.y + q.y, p.z + q.z⟩

/-- One step of region growing: add all foreground 26-neighbors of the
current set. -/
def growOnce (fg : V3 ℤ → Bool) (cur : List (V3 ℤ)) : List (V3 ℤ) :=
  (cur ++ cur.flatMap fun p => (neighborOffsets.map (vadd p)).filter fg).dedup

/-- Number of voxels of the grid (enough growing steps to reach a
fixpoint). -/
def numVoxels (sz : V3 ℕ) : ℕ := sz.x * sz.y * sz.z

/-- The 26-connected component of `seed` in the foreground `fg`, as the
set of voxels reachable from `seed` (computed by bounded region
growing). -/
def component (sz : V3 ℕ) (fg : V3 ℤ → Bool) (seed : V3 ℤ) : List (V3 ℤ) :=
  (growOnce fg)^[numVoxels sz] [seed]

/-- Scan the voxels in raster order, opening a new component at every
foreground voxel not yet contained in a found component
(`ConnectedComponentImageFilter` semantics: components in first-voxel
scan order). -/
def componentsAux (sz : V3 ℕ) (fg : V3 ℤ → Bool) :
    List (V3 ℤ) → List (List (V3 ℤ)) → List (List (V3 ℤ))
  | [], acc => acc
  | p :: ps, acc =>
    if fg p = true ∧ (∀ c ∈ acc, p ∉ c) then
      componentsAux sz fg ps (acc ++ [component sz fg p])
    else
      componentsAux sz fg ps acc

/-- The connected components of the foreground `fg`, in scan order. -/
def components (sz : V3 ℕ) (fg : V3 ℤ → Bool) : List (List (V3 ℤ)) :=
  componentsAux sz fg (scanIdx sz) []

/-- The largest component (ties broken by scan order, i.e. the first of
maximal size — `RelabelComponent`'s stable sort puts it first), or the
empty set when there is no component. -/
def largestComp (cs : List (List (V3 ℤ))) : List (V3 ℤ) :=
  cs.foldl (fun best c => if best.length < c.length then c else best) []

/-- Foreground predicate of the binary mask `mask == label`. -/
def maskFg (mask : LabelVol) (label : ℤ) : V3 ℤ → Bool :=
  fun p => inBounds mask.size p && decide (mask.data p = label)

/-- `(RelabelComponent(ConnectedComponent(mask == label)) == 1)`:
the binary mask of the largest 26-connected component of `mask == label`. -/
def largest_cc_binary (mask : LabelVol) (label : ℤ) : LabelVol :=
  ⟨mask.size, fun p =>
    if p ∈ largestComp (components mask.size (maskFg mask label)) then 1 else 0⟩

/-- `(RelabelComponent(ConnectedComponent(mask == label), threshold) > 0)`:
the binary mask of all components of `mask == label` with at least
`threshold` voxels. -/
def min_size_binary (mask : LabelVol) (label : ℤ) (threshold : ℕ) : LabelVol :=
  ⟨mask.size, fun p =>
    if ∃ c ∈ (components mask.size (maskFg mask label)).filter
        (fun (c : List (V3 ℤ)) => decide (threshold ≤ c.length)), p ∈ c
    then 1 else 0⟩

/-- `sitk.Add`, voxelwise. -/
def volAdd (a b : LabelVol) : LabelVol := ⟨a.size, fun p => a.data p + b.data p⟩

/-- Scalar multiplication `label * binary_mask`, voxelwise. -/
def volSMul (c : ℤ) (a : LabelVol) : LabelVol := ⟨a.size, fun p => c * a.data p⟩

/-- The recombination loop shared by both filters:
`multi = binaries[0]; for idx in 1..: multi = Add(multi, labels[idx] * binaries[idx])`. -/
def combineMasks (first : LabelVol) (rest : List (ℤ × LabelVol)) : LabelVol :=
  rest.foldl (fun m lb => volAdd m (volSMul lb.1 lb.2)) first

/-- Shared tail of both filter functions: map the per-label binary-mask
builder over `labels`, then recombine; `binaries[0]` on an empty list
raises Python's `IndexError`. -/
def combineLabelMasks (f : ℤ → LabelVol) (labels : List ℤ) : Except PyErr LabelVol :=
  match labels.map f with
  | [] => Except.error PyErr.indexError
  | b0 :: brest => Except.ok (combineMasks b0 ((labels.drop 1).zip brest))

/-- Embedding of `pick_largest_connected_component` (image_tools.py,
lines 355-379).  Note the source multiplies `labels[idx]` onto the binary
mask only for `idx >= 1`; the first label's mask enters unscaled, and the
final cast to the input pixel type is modelled as the identity. -/
def pick_largest_connected_component (mask : LabelVol) (labels : List ℤ) :
    Except PyErr LabelVol :=
  combineLabelMasks (fun label => largest_cc_binary mask label) labels

/-- Embedding of `remove_small_connected_component` (image_tools.py,
lines 382-407), identical to `pick_largest_connected_component` except
that each label keeps all components of size at least `threshold`. -/
def remove_small_connected_component (mask : LabelVol) (labels : List ℤ)
    (threshold : ℕ) : Except PyErr LabelVol :=
  combineLabelMasks (fun label => min_size_binary mask label threshold) labels

/-! ### Resampling and cropping

`sitk.Resample` is external; these embeddings record the frame (size,
spacing, origin, direction) of the image it returns, which is determined
entirely by the arguments the source passes to it.  Voxel values are
computed by the external interpolator and are outside the scope of the
frame/error claims.
-/

/-- The frame of a SimpleITK image: voxel grid size, spacing, origin and
direction cosines (a row-major list of 9 floats for a 3D image). -/
structure ImgFrame where
  size : V3 ℤ
  spacing : V3 ℚ
  origin : V3 ℚ
  direction : List ℚ
deriving DecidableEq

/-- The arguments `crop_image` passes to `sitk.Resample` (which are the
frame of the returned patch). -/
structure CropCall where
  size : V3 ℤ
  spacing : V3 ℚ
  origin : V3 ℚ
  direction : List ℚ
  interp : String
deriving DecidableEq

/-- Embedding of `crop_image` (image_tools.py, lines 103-139): the
cropped patch's origin is `center - size*spacing/2` per axis, its
direction is the source's, and an unsupported interpolation mode raises
`ValueError`. -/
def crop_image (image : ImgFrame) (cropping_center : V3 ℚ)
    (cropping_size : V3 ℤ) (cropping_spacing : V3 ℚ)
    (interp_method : String) : Except PyErr CropCall :=
  if interp_method = "LINEAR" ∨ interp_method = "NN" then
    Except.ok ⟨cropping_size, cropping_spacing,
      ⟨cropping_center.x - (cropping_size.x : ℚ) * cropping_spacing.x / 2,
       cropping_center.y - (cropping_size.y : ℚ) * cropping_spacing.y / 2,
       cropping_center.z - (cropping_size.z : ℚ) * cropping_spacing.z / 2⟩,
      image.direction, interp_method⟩
  else
    Except.error (PyErr.valueError "Unsupported interpolation type.")

/-- Embedding of `resample` (image_tools.py, lines 304-318): resampling
onto a reference image returns an image with the reference's frame; an
unsupported interpolation mode raises `ValueError`. -/
def resample (_image reference : ImgFrame) (interp_method : String) :
    Except PyErr ImgFrame :=
  if interp_method = "LINEAR" ∨ interp_method = "NN" then
    Except.ok reference
  else
    Except.error (PyErr.valueError "Unsupported interpolation type.")

/-- Embedding of `resample_spacing` (image_tools.py, lines 321-352).
The output size is `int(in_size*in_spacing/out_spacing + 0.5)` rounded up
to a multiple of `max_stride`; origin and direction are passed through
unchanged.  Python raises `ZeroDivisionError` when an output spacing
component is zero (float division) or `max_stride` is zero
(`out_size % max_stride`), and `ValueError` on an unsupported
interpolation mode. -/
def resample_spacing (image : ImgFrame) (resampled_spacing : V3 ℚ)
    (max_stride : ℕ) (interp_method : String) : Except PyErr ImgFrame :=
  if resampled_spacing.x = 0 ∨ resampled_spacing.y = 0 ∨
      resampled_spacing.z = 0 then
    Except.error PyErr.zeroDivisionError
  else if max_stride = 0 then
    Except.error PyErr.zeroDivisionError
  else if interp_method = "LINEAR" ∨ interp_method = "NN" then
    Except.ok ⟨⟨roundUpToMultiple
        (pyInt ((image.size.x : ℚ) * image.spacing.x / resampled_spacing.x + 1/2))
        max_stride,
      roundUpToMultiple
        (pyInt ((image.size.y : ℚ) * image.spacing.y / resampled_spacing.y + 1/2))
        max_stride,
      roundUpToMultiple
        (pyInt ((image.size.z : ℚ) * image.spacing.z / resampled_spacing.z + 1/2))
        max_stride⟩,
      resampled_spacing, image.origin, image.direction⟩
  else
    Except.error (PyErr.valueError "Unsupported interpolation type.")

/-! ### Score accumulation -/

/-- A score image: frame plus rational voxel data. -/
structure ScoreImg where
  size : V3 ℕ
  spacing : V3 ℚ
  origin : V3 ℚ
  direction : List ℚ
  data : V3 ℤ → ℚ

/-- numpy's normalization of a slice index for an axis of length `n`
(negative indices count from the end; out-of-range indices clip). -/
def npNormIdx (n : ℕ) (i : ℤ) : ℤ :=
  min (max (if i < 0 then i + (n : ℤ) else i) 0) (n : ℤ)

/-- Embedding of `add_image_value` (image_tools.py, lines 410-424):
`image_npy[s2:e2, s1:e1, s0:e0] += value` on the (z,y,x)-ordered array,
then `CopyInformation` restores the input frame. -/
def add_image_value (image : ScoreImg) (start_voxel end_voxel : V3 ℤ)
    (value : ℚ) : ScoreImg :=
  { image with data := fun p =>
      if npNormIdx image.size.x start_voxel.x ≤ p.x ∧
          p.x < npNormIdx image.size.x end_voxel.x ∧
          npNormIdx image.size.y start_voxel.y ≤ p.y ∧
          p.y < npNormIdx image.size.y end_voxel.y ∧
          npNormIdx image.size.z start_voxel.z ≤ p.z ∧
          p.z < npNormIdx image.size.z end_voxel.z
      then image.data p + value
      else image.data p }

/-- A voxel index lies inside the half-open window `[s, e)`. -/
def insideWindow (s e p : V3 ℤ) : Prop :=
  ∀ i : Fin 3, s.nth i ≤ p.nth i ∧ p.nth i < e.nth i

instance (s e p : V3 ℤ) : Decidable (insideWindow s e p) := by
  unfold insideWindow
  infer_instance

/-- The window `[s, e)` is well-formed and inside a grid of size `sz`
(the spec's `Window` invariant). -/
def windowInImage (sz : V3 ℕ) (s e : V3 ℤ) : Prop :=
  ∀ i : Fin 3, 0 ≤ s.nth i ∧ s.nth i ≤ e.nth i ∧ e.nth i ≤ (sz.nth i : ℤ)

instance (sz : V3 ℕ) (s e : V3 ℤ) : Decidable (windowInImage sz s e) := by
  unfold windowInImage
  infer_instance

/-! ### Helper lemmas -/

/-- `roundUpToMultiple b m` is the least multiple of `m` that is at least
`b`, for positive `m`. -/
theorem roundUpToMultiple_spec (b : ℤ) (m : ℕ) (hm : 0 < m) :
    (m : ℤ) ∣ roundUpToMultiple b m ∧ b ≤ roundUpToMultiple b m ∧
      roundUpToMultiple b m < b + m := by
  have hmz : (0 : ℤ) < (m : ℤ) := by exact_mod_cast hm
  unfold roundUpToMultiple
  by_cases h : b % (m : ℤ) = 0
  · simp only [h, ne_eq, not_true_eq_false, if_false]
    exact ⟨Int.dvd_of_emod_eq_zero h, le_refl b, by linarith⟩
  · simp only [ne_eq, h, not_false_eq_true, if_true]
    have hdm : (m : ℤ) * (b / (m : ℤ)) = b - b % (m : ℤ) := by
      have := Int.ediv_add_emod b (m : ℤ)
      linarith
    have h0 : 0 ≤ b % (m : ℤ) := Int.emod_nonneg b (ne_of_gt hmz)
    have h1 : b % (m : ℤ) < (m : ℤ) := Int.emod_lt_of_pos b hmz
    have h2 : 0 < b % (m : ℤ) := lt_of_le_of_ne h0 (Ne.symm h)
    refine ⟨⟨b / (m : ℤ) + 1, rfl⟩, ?_, ?_⟩
    · have : (m : ℤ) * (b / (m : ℤ) + 1) = b - b % (m : ℤ) + m := by
        rw [mul_add, hdm]; ring
      rw [this]; linarith
    · have : (m : ℤ) * (b / (m : ℤ) + 1) = b - b % (m : ℤ) + m := by
        rw [mul_add, hdm]; ring
      rw [this]; linarith

/-- Evaluation rule for `pyInt` on nonnegative rationals. -/
theorem pyInt_eval {x : ℚ} {z : ℤ} (h0 : 0 ≤ x) (h1 : (z : ℚ) ≤ x)
    (h2 : x < z + 1) : pyInt x = z := by
  unfold pyInt
  rw [if_pos h0]
  exact Int.floor_eq_iff.mpr ⟨h1, h2⟩

/-- Derived voxel stride for unit spacing and physical stride 2. -/
theorem derivedStride_unit2 : derivedStrideSize ⟨1,1,1⟩ ⟨2,2,2⟩ = ⟨2,2,2⟩ := by
  unfold derivedStrideSize
  rw [show pyInt ((2:ℚ)/1 + 1/2) = 2 from
    pyInt_eval (by norm_num) (by norm_num) (by norm_num)]

/-- Derived voxel box for unit spacing, physical size 2, `max_stride = 2`. -/
theorem derivedBox_unit2 : derivedBoxSize ⟨1,1,1⟩ ⟨2,2,2⟩ 2 = ⟨2,2,2⟩ := by
  unfold derivedBoxSize
  rw [show pyInt ((2:ℚ)/1 + 1/2) = 2 from
    pyInt_eval (by norm_num) (by norm_num) (by norm_num)]
  decide

/-- The planner output for a 4x4x4 grid, unit spacing, physical tile size
and stride 2, `max_stride = 2`: four non-clamped windows per pair of axes
(per-axis windows `[0,2)` and `[2,4)`). -/
theorem partition_unit4 :
    image_partition_by_fixed_size ⟨4,4,4⟩ ⟨1,1,1⟩ ⟨2,2,2⟩ ⟨2,2,2⟩ 2 =
      Except.ok
        [⟨⟨0,0,0⟩, ⟨2,2,2⟩⟩, ⟨⟨0,0,2⟩, ⟨2,2,4⟩⟩, ⟨⟨0,2,0⟩, ⟨2,4,2⟩⟩, ⟨⟨0,2,2⟩, ⟨2,4,4⟩⟩,
         ⟨⟨2,0,0⟩, ⟨4,2,2⟩⟩, ⟨⟨2,0,2⟩, ⟨4,2,4⟩⟩, ⟨⟨2,2,0⟩, ⟨4,4,2⟩⟩, ⟨⟨2,2,2⟩, ⟨4,4,4⟩⟩] := by
  rw [image_partition_by_fixed_size, derivedStride_unit2, derivedBox_unit2]
  dsimp only
  have hnp : numPartitionsAxis 4 2 2 = 2 := by
    unfold numPartitionsAxis
    rw [Int.ceil_eq_iff]
    constructor <;> norm_num
  rw [hnp]
  rw [if_neg (by norm_num), if_neg (by decide), if_neg (by decide)]
  rfl

/-- Derived voxel stride for unit spacing and physical stride 51.2:
`int(51.2/1 + 0.5) = 51`, not rounded to a multiple of `max_stride`. -/
theorem derivedStride_c2 :
    derivedStrideSize ⟨1,1,1⟩ ⟨51.2,51.2,51.2⟩ = ⟨51,51,51⟩ := by
  unfold derivedStrideSize
  rw [show pyInt ((51.2:ℚ)/1 + 1/2) = 51 from
    pyInt_eval (by norm_num) (by norm_num) (by norm_num)]

/-- Derived voxel box for unit spacing, physical size 51.2,
`max_stride = 16`: 51 rounds up to 64. -/
theorem derivedBox_c2 :
    derivedBoxSize ⟨1,1,1⟩ ⟨51.2,51.2,51.2⟩ 16 = ⟨64,64,64⟩ := by
  unfold derivedBoxSize
  rw [show pyInt ((51.2:ℚ)/1 + 1/2) = 51 from
    pyInt_eval (by norm_num) (by norm_num) (by norm_num)]
  decide

/-- The planner output for the spec's concrete scenario: a 100x100x100
grid, unit spacing, tile physical size and stride 51.2, `max_stride = 16`. -/
theorem partition_c2 :
    image_partition_by_fixed_size ⟨100,100,100⟩ ⟨1,1,1⟩ ⟨51.2,51.2,51.2⟩
      ⟨51.2,51.2,51.2⟩ 16 = Except.ok c2Windows := by
  rw [image_partition_by_fixed_size, derivedStride_c2, derivedBox_c2]
  dsimp only
  have hnp : numPartitionsAxis 100 64 51 = 2 := by
    unfold numPartitionsAxis
    rw [Int.ceil_eq_iff]
    constructor <;> norm_num
  rw [hnp]
  rw [if_neg (by norm_num), if_neg (by decide), if_neg (by decide)]
  rfl

/-- The extent of every (possibly clamped) per-axis window equals the box
size. -/
theorem axisExtent (n : ℕ) (box stride : ℤ) (k : ℕ) :
    axisEnd n box stride k - axisStart n box stride k = box := by
  unfold axisStart axisEnd
  by_cases h : (k : ℤ) * stride + box > (n : ℤ) <;> simp [h]

/-- The planner produces at least one window index per axis when the box
fits in the grid. -/
theorem numPartitionsAxis_pos (n : ℕ) (box stride : ℤ) (hs : 0 < stride)
    (hbn : box ≤ (n : ℤ)) : 1 ≤ numPartitionsAxis n box stride := by
  have hsQ : (0 : ℚ) < (stride : ℚ) := by exact_mod_cast hs
  have hx : (0 : ℚ) ≤ ((n : ℚ) - (box : ℚ)) / (stride : ℚ) := by
    apply div_nonneg _ (le_of_lt hsQ)
    have : (box : ℚ) ≤ (n : ℚ) := by exact_mod_cast hbn
    linarith
  unfold numPartitionsAxis
  rw [Int.ceil_add_one]
  have : 0 ≤ ⌈((n : ℚ) - (box : ℚ)) / (stride : ℚ)⌉ := Int.ceil_nonneg hx
  omega

/-- Per-axis coverage of the planner: if the voxel stride is positive, no
larger than the box, and the box fits in the grid, every voxel index in
`[0, n)` is inside some per-axis window. -/
theorem axis_cover (n : ℕ) (box stride : ℤ) (hs : 0 < stride)
    (hsb : stride ≤ box) (hbn : box ≤ (n : ℤ)) (v : ℤ) (hv0 : 0 ≤ v)
    (hvn : v < (n : ℤ)) :
    ∃ k : ℕ, (k : ℤ) < numPartitionsAxis n box stride ∧
      axisStart n box stride k ≤ v ∧ v < axisEnd n box stride k := by
  have hsQ : (0 : ℚ) < (stride : ℚ) := by exact_mod_cast hs
  set m : ℤ := ⌈((n : ℚ) - (box : ℚ)) / (stride : ℚ)⌉ with hmdef
  have hm0 : 0 ≤ m := by
    apply Int.ceil_nonneg
    apply div_nonneg _ (le_of_lt hsQ)
    have : (box : ℚ) ≤ (n : ℚ) := by exact_mod_cast hbn
    linarith
  have hnum : numPartitionsAxis n box stride = m + 1 := by
    unfold numPartitionsAxis
    rw [Int.ceil_add_one]
  have hmS : (n : ℤ) - box ≤ m * stride := by
    have h1 : ((n : ℚ) - (box : ℚ)) / (stride : ℚ) ≤ (m : ℚ) := Int.le_ceil _
    have h2 : (n : ℚ) - (box : ℚ) ≤ (m : ℚ) * (stride : ℚ) :=
      (div_le_iff₀ hsQ).mp h1
    exact_mod_cast h2
  set q : ℤ := v / stride with hqdef
  have hq0 : 0 ≤ q := Int.ediv_nonneg hv0 (le_of_lt hs)
  have hqe := Int.ediv_add_emod v stride
  have hr0 : 0 ≤ v % stride := Int.emod_nonneg v (ne_of_gt hs)
  have hr1 : v % stride < stride := Int.emod_lt_of_pos v hs
  have hqle : q * stride ≤ v := by nlinarith [hqe]
  have hqlt : v < q * stride + stride := by nlinarith [hqe]
  refine ⟨(min q m).toNat, ?_⟩
  have hk : ((min q m).toNat : ℤ) = min q m :=
    Int.toNat_of_nonneg (le_min hq0 hm0)
  unfold axisStart axisEnd
  rw [hnum, hk]
  by_cases hcase : q ≤ m
  · rw [min_eq_left hcase]
    refine ⟨by omega, ?_, ?_⟩
    · by_cases hclamp : q * stride + box > (n : ℤ)
      · rw [if_pos hclamp]
        nlinarith
      · rw [if_neg hclamp]
        exact hqle
    · by_cases hclamp : q * stride + box > (n : ℤ)
      · rw [if_pos hclamp]
        exact hvn
      · rw [if_neg hclamp]
        nlinarith
  · push_neg at hcase
    rw [min_eq_right (le_of_lt hcase)]
    have hv_ge : m * stride + stride ≤ v := by
      have h1 : m + 1 ≤ q := hcase
      have h2 : (m + 1) * stride ≤ q * stride :=
        mul_le_mul_of_nonneg_right h1 (le_of_lt hs)
      nlinarith
    refine ⟨by omega, ?_, ?_⟩
    · by_cases hclamp : m * stride + box > (n : ℤ)
      · rw [if_pos hclamp]
        nlinarith
      · rw [if_neg hclamp]
        nlinarith
    · by_cases hclamp : m * stride + box > (n : ℤ)
      · rw [if_pos hclamp]
        exact hvn
      · rw [if_neg hclamp]
        push_neg at hclamp
        nlinarith

/-! ### Connected-component helper lemmas -/

/-- Anything produced by one growing step was already present or is a
foreground voxel. -/
theorem mem_growOnce_elim {fg : V3 ℤ → Bool} {cur : List (V3 ℤ)} {q : V3 ℤ}
    (h : q ∈ growOnce fg cur) : q ∈ cur ∨ fg q = true := by
  unfold growOnce at h
  rw [List.mem_dedup] at h
  rcases List.mem_append.mp h with h1 | h2
  · exact Or.inl h1
  · obtain ⟨p, _, hq⟩ := List.mem_flatMap.mp h2
    exact Or.inr (List.mem_filter.mp hq).2

/-- Growing never loses voxels. -/
theorem subset_growOnce (fg : V3 ℤ → Bool) (cur : List (V3 ℤ)) :
    cur ⊆ growOnce fg cur := by
  intro q hq
  unfold growOnce
  rw [List.mem_dedup]
  exact List.mem_append.mpr (Or.inl hq)

/-- Iterated growing preserves "every voxel is foreground". -/
theorem iterate_grow_sound (fg : V3 ℤ → Bool) (n : ℕ) :
    ∀ cur, (∀ q ∈ cur, fg q = true) →
      ∀ q ∈ (growOnce fg)^[n] cur, fg q = true := by
  induction n with
  | zero => intro cur h q hq; simpa using h q (by simpa using hq)
  | succ n ih =>
    intro cur h q hq
    rw [Function.iterate_succ_apply] at hq
    exact ih (growOnce fg cur)
      (fun r hr => (mem_growOnce_elim hr).elim (h r) id) q hq

/-- Iterated growing never loses voxels. -/
theorem subset_iterate_grow (fg : V3 ℤ → Bool) (n : ℕ) :
    ∀ cur, cur ⊆ (growOnce fg)^[n] cur := by
  induction n with
  | zero => intro cur; simp
  | succ n ih =>
    intro cur
    rw [Function.iterate_succ_apply]
    exact fun q hq => ih (growOnce fg cur) (subset_growOnce fg cur hq)

/-- Every voxel of a component of a foreground seed is foreground. -/
theorem component_sound (sz : V3 ℕ) (fg : V3 ℤ → Bool) (seed : V3 ℤ)
    (h : fg seed = true) : ∀ q ∈ component sz fg seed, fg q = true :=
  iterate_grow_sound fg (numVoxels sz) [seed]
    (fun q hq => by rw [List.mem_singleton] at hq; exact hq ▸ h)

/-- The seed belongs to its own component. -/
theorem seed_mem_component (sz : V3 ℕ) (fg : V3 ℤ → Bool) (seed : V3 ℤ) :
    seed ∈ component sz fg seed :=
  subset_iterate_grow fg (numVoxels sz) [seed] (List.mem_singleton_self seed)

/-- All voxels of all components found by the scan are foreground. -/
theorem componentsAux_sound (sz : V3 ℕ) (fg : V3 ℤ → Bool) :
    ∀ ps acc, (∀ c ∈ acc, ∀ q ∈ c, fg q = true) →
      ∀ c ∈ componentsAux sz fg ps acc, ∀ q ∈ c, fg q = true := by
  intro ps
  induction ps with
  | nil => intro acc h; simpa [componentsAux] using h
  | cons p ps ih =>
    intro acc h
    simp only [componentsAux]
    split
    next hcond =>
      apply ih
      intro c hc
      rcases List.mem_append.mp hc with h1 | h2
      · exact h c h1
      · rw [List.mem_singleton] at h2
        exact h2 ▸ component_sound sz fg p hcond.1
    next => exact ih acc h

/-- Components already found persist through the rest of the scan. -/
theorem componentsAux_mono (sz : V3 ℕ) (fg : V3 ℤ → Bool) :
    ∀ ps acc c, c ∈ acc → c ∈ componentsAux sz fg ps acc := by
  intro ps
  induction ps with
  | nil => intro acc c hc; simpa [componentsAux] using hc
  | cons p ps ih =>
    intro acc c hc
    simp only [componentsAux]
    split
    · exact ih _ c (List.mem_append_left _ hc)
    · exact ih _ c hc

/-- Every foreground voxel of the scan list ends up in some found
component. -/
theorem componentsAux_cover (sz : V3 ℕ) (fg : V3 ℤ → Bool) :
    ∀ ps acc p, fg p = true → (p ∈ ps ∨ ∃ c ∈ acc, p ∈ c) →
      ∃ c ∈ componentsAux sz fg ps acc, p ∈ c := by
  intro ps
  induction ps with
  | nil =>
    intro acc p _ h
    rcases h with h | h
    · cases h
    · simpa [componentsAux] using h
  | cons q ps ih =>
    intro acc p hfg h
    simp only [componentsAux]
    split
    next hcond =>
      rcases h with h | h
      · rcases List.mem_cons.mp h with rfl | hps
        · exact ih _ p hfg (Or.inr ⟨component sz fg p,
            List.mem_append_right _ (List.mem_singleton_self _),
            seed_mem_component sz fg p⟩)
        · exact ih _ p hfg (Or.inl hps)
      · obtain ⟨c, hc, hpc⟩ := h
        exact ih _ p hfg (Or.inr ⟨c, List.mem_append_left _ hc, hpc⟩)
    next hcond =>
      rcases h with h | h
      · rcases List.mem_cons.mp h with rfl | hps
        · rcases not_and_or.mp hcond with h1 | h2
          · exact absurd hfg h1
          · push_neg at h2
            obtain ⟨c, hc, hpc⟩ := h2
            exact ih _ p hfg (Or.inr ⟨c, hc, hpc⟩)
        · exact ih _ p hfg (Or.inl hps)
      · exact ih _ p hfg (Or.inr h)

/-- Componentwise extensionality of `V3`. -/
theorem V3.eq_of_parts {α : Type} {a b : V3 α} (hx : a.x = b.x)
    (hy : a.y = b.y) (hz : a.z = b.z) : a = b := by
  obtain ⟨a1, a2, a3⟩ := a
  obtain ⟨b1, b2, b3⟩ := b
  dsimp only at hx hy hz
  rw [hx, hy, hz]

/-- The scan list contains exactly the in-bounds voxel indices. -/
theorem mem_scanIdx (sz : V3 ℕ) (p : V3 ℤ) :
    p ∈ scanIdx sz ↔ inBounds sz p = true := by
  unfold scanIdx inBounds
  rw [decide_eq_true_eq]
  constructor
  · intro h
    obtain ⟨z, hz, h2⟩ := List.mem_flatMap.mp h
    obtain ⟨y, hy, h3⟩ := List.mem_flatMap.mp h2
    obtain ⟨x, hx, h4⟩ := List.mem_map.mp h3
    rw [List.mem_range] at hz hy hx
    subst h4
    refine ⟨?_, ?_, ?_, ?_, ?_, ?_⟩ <;> dsimp only <;> omega
  · intro h
    obtain ⟨hx0, hx1, hy0, hy1, hz0, hz1⟩ := h
    apply List.mem_flatMap.mpr
    refine ⟨p.z.toNat, List.mem_range.mpr (by omega), ?_⟩
    apply List.mem_flatMap.mpr
    refine ⟨p.y.toNat, List.mem_range.mpr (by omega), ?_⟩
    apply List.mem_map.mpr
    refine ⟨p.x.toNat, List.mem_range.mpr (by omega), ?_⟩
    exact V3.eq_of_parts (by dsimp only; omega) (by dsimp only; omega)
      (by dsimp only; omega)

/-- Soundness of `components`. -/
theorem components_sound (sz : V3 ℕ) (fg : V3 ℤ → Bool) :
    ∀ c ∈ components sz fg, ∀ q ∈ c, fg q = true :=
  componentsAux_sound sz fg (scanIdx sz) [] (by simp)

/-- Every in-bounds foreground voxel lies in some component. -/
theorem components_cover (sz : V3 ℕ) (fg : V3 ℤ → Bool) (p : V3 ℤ)
    (hfg : fg p = true) (hb : inBounds sz p = true) :
    ∃ c ∈ components sz fg, p ∈ c :=
  componentsAux_cover sz fg (scanIdx sz) [] p hfg
    (Or.inl ((mem_scanIdx sz p).mpr hb))

/-- The fold that picks the largest component returns its initial value
or an element of the list. -/
theorem foldl_pick_mem (cs : List (List (V3 ℤ))) :
    ∀ b, cs.foldl (fun best c => if best.length < c.length then c else best) b = b ∨
      cs.foldl (fun best c => if best.length < c.length then c else best) b ∈ cs := by
  induction cs with
  | nil => intro b; exact Or.inl rfl
  | cons c cs ih =>
    intro b
    rw [List.foldl_cons]
    rcases ih (if b.length < c.length then c else b) with h | h
    · rw [h]
      split
      · exact Or.inr (List.mem_cons_self _ _)
      · exact Or.inl rfl
    · exact Or.inr (List.mem_cons_of_mem _ h)

/-- The largest component is empty or one of the components. -/
theorem largestComp_mem (cs : List (List (V3 ℤ))) :
    largestComp cs = [] ∨ largestComp cs ∈ cs :=
  foldl_pick_mem cs []

/-- The largest-component binary mask is 0/1-valued, and is 1 only on
in-bounds voxels carrying the filtered label. -/
theorem largest_cc_binary_spec (mask : LabelVol) (label : ℤ) (p : V3 ℤ) :
    (largest_cc_binary mask label).data p = 0 ∨
    ((largest_cc_binary mask label).data p = 1 ∧
      inBounds mask.size p = true ∧ mask.data p = label) := by
  unfold largest_cc_binary
  dsimp only
  split
  next hmem =>
    right
    refine ⟨rfl, ?_⟩
    rcases largestComp_mem (components mask.size (maskFg mask label)) with he | hm
    · rw [he] at hmem
      cases hmem
    · have hfg := components_sound mask.size (maskFg mask label) _ hm p hmem
      unfold maskFg at hfg
      simp only [Bool.and_eq_true, decide_eq_true_eq] at hfg
      exact hfg
  next => exact Or.inl rfl

/-- The min-size binary mask is 0/1-valued, and is 1 only on in-bounds
voxels carrying the filtered label. -/
theorem min_size_binary_spec (mask : LabelVol) (label : ℤ) (threshold : ℕ)
    (p : V3 ℤ) :
    (min_size_binary mask label threshold).data p = 0 ∨
    ((min_size_binary mask label threshold).data p = 1 ∧
      inBounds mask.size p = true ∧ mask.data p = label) := by
  unfold min_size_binary
  dsimp only
  split
  next hmem =>
    right
    refine ⟨rfl, ?_⟩
    obtain ⟨c, hc, hpc⟩ := hmem
    have hc' := (List.mem_filter.mp hc).1
    have hfg := components_sound mask.size (maskFg mask label) c hc' p hpc
    unfold maskFg at hfg
    simp only [Bool.and_eq_true, decide_eq_true_eq] at hfg
    exact hfg
  next => exact Or.inl rfl

/-- With threshold 0 the min-size binary mask keeps the whole foreground:
no component is discarded. -/
theorem min_size_binary_zero (mask : LabelVol) (label : ℤ) (p : V3 ℤ) :
    (min_size_binary mask label 0).data p =
      if maskFg mask label p = true then 1 else 0 := by
  unfold min_size_binary
  dsimp only
  have hfil : (components mask.size (maskFg mask label)).filter
      (fun (c : List (V3 ℤ)) => decide ((0 : ℕ) ≤ c.length)) =
      components mask.size (maskFg mask label) :=
    List.filter_eq_self.mpr (fun c _ => by simp)
  rw [hfil]
  by_cases h : maskFg mask label p = true
  · rw [if_pos h, if_pos]
    have hb : inBounds mask.size p = true := by
      have h' := h
      unfold maskFg at h'
      simp only [Bool.and_eq_true, decide_eq_true_eq] at h'
      exact h'.1
    exact components_cover mask.size (maskFg mask label) p h hb
  · rw [if_neg h, if_neg]
    intro hex
    obtain ⟨c, hc, hpc⟩ := hex
    exact h (components_sound mask.size (maskFg mask label) c hc p hpc)

/-- Voxelwise value of the recombination fold. -/
theorem combineMasks_data (rest : List (ℤ × LabelVol)) :
    ∀ (first : LabelVol) (p : V3 ℤ),
      (combineMasks first rest).data p =
        first.data p + (rest.map fun lb => lb.1 * lb.2.data p).sum := by
  induction rest with
  | nil => intro first p; simp [combineMasks]
  | cons lb t ih =>
    intro first p
    show (combineMasks (volAdd first (volSMul lb.1 lb.2)) t).data p = _
    rw [ih]
    simp only [volAdd, volSMul, List.map_cons, List.sum_cons]
    ring

/-- Zipping a list with its own image under `f`. -/
theorem zip_map_sum (l : List ℤ) (f : ℤ → LabelVol) (p : V3 ℤ) :
    ((l.zip (l.map f)).map fun lb => lb.1 * lb.2.data p).sum =
      (l.map fun a => a * (f a).data p).sum := by
  induction l with
  | nil => rfl
  | cons a t ih => simp [List.zip_cons_cons, ih]

/-- Voxelwise value of the shared filter tail on a non-empty label list. -/
theorem combineLabelMasks_data (f : ℤ → LabelVol) (l0 : ℤ) (rest : List ℤ) :
    ∃ v, combineLabelMasks f (l0 :: rest) = Except.ok v ∧
      ∀ p : V3 ℤ, v.data p =
        (f l0).data p + (rest.map fun a => a * (f a).data p).sum := by
  refine ⟨combineMasks (f l0) (rest.zip (rest.map f)), rfl, ?_⟩
  intro p
  rw [combineMasks_data, zip_map_sum]

/-- A mapped sum all of whose terms vanish. -/
theorem map_sum_zero (l : List ℤ) (g : ℤ → ℤ) (h : ∀ x ∈ l, g x = 0) :
    (l.map g).sum = 0 :=
  List.sum_eq_zero (fun x hx => by
    obtain ⟨a, ha, rfl⟩ := List.mem_map.mp hx
    exact h a ha)

/-- A mapped sum over a duplicate-free list with at most one non-zero
term. -/
theorem map_sum_single (l : List ℤ) (g : ℤ → ℤ) (a : ℤ) (ha : a ∈ l)
    (hnd : l.Nodup) (hz : ∀ x ∈ l, x ≠ a → g x = 0) : (l.map g).sum = g a := by
  induction l with
  | nil => cases ha
  | cons b t ih =>
    rw [List.map_cons, List.sum_cons]
    rcases List.mem_cons.mp ha with rfl | hat
    · have hzt : ∀ x ∈ t, g x = 0 := fun x hx =>
        hz x (List.mem_cons_of_mem _ hx)
          (fun he => (List.nodup_cons.mp hnd).1 (he ▸ hx))
      rw [map_sum_zero t g hzt, add_zero]
    · have hb : g b = 0 :=
        hz b (List.mem_cons_self _ _)
          (fun he => (List.nodup_cons.mp hnd).1 (he ▸ hat))
      rw [hb, ih hat (List.nodup_cons.mp hnd).2
        (fun x hx hxa => hz x (List.mem_cons_of_mem _ hx) hxa), zero_add]

/-! ### Partition planner claims -/

/-- Claim C1, counterexample: with a 5x5x5 grid, unit spacing, physical
tile size 2 and physical stride 4 (all positive, derived voxel tile size
2 <= 5), the planner's windows are `[0,2)` and `[3,5)` on each axis, so
voxel index 2 is covered by no window on axis x — the claimed coverage
fails because the claim does not require the stride to be at most the tile
size. -/
theorem C1_counterexample :
    image_partition_by_fixed_size ⟨5,5,5⟩ ⟨1,1,1⟩ ⟨2,2,2⟩ ⟨4,4,4⟩ 1 =
      Except.ok c1Windows ∧
    (∀ w ∈ c1Windows, ¬(w.start_voxel.x ≤ 2 ∧ (2 : ℤ) < w.end_voxel.x)) := by
  constructor
  · rw [image_partition_by_fixed_size]
    have hstr : derivedStrideSize ⟨1,1,1⟩ ⟨4,4,4⟩ = ⟨4,4,4⟩ := by
      unfold derivedStrideSize
      rw [show pyInt ((4:ℚ)/1 + 1/2) = 4 from
        pyInt_eval (by norm_num) (by norm_num) (by norm_num)]
    have hbox : derivedBoxSize ⟨1,1,1⟩ ⟨2,2,2⟩ 1 = ⟨2,2,2⟩ := by
      unfold derivedBoxSize
      rw [show pyInt ((2:ℚ)/1 + 1/2) = 2 from
        pyInt_eval (by norm_num) (by norm_num) (by norm_num)]
      decide
    rw [hstr, hbox]
    dsimp only
    have hnp : numPartitionsAxis 5 2 4 = 2 := by
      unfold numPartitionsAxis
      rw [Int.ceil_eq_iff]
      constructor <;> norm_num
    rw [hnp]
    rw [if_neg (by norm_num), if_neg (by decide), if_neg (by decide)]
    rfl
  · decide

/-- Claim C1, amended: coverage additionally requires the derived voxel
stride to be positive and at most the derived voxel tile size; under those
hypotheses the union of the returned windows covers every voxel index in
`[0, grid_size)` on every axis. -/
theorem C1_coverage (image_size : V3 ℕ)
    (image_spacing partition_size partition_stride : V3 ℚ) (max_stride : ℕ)
    (hms : 0 < max_stride)
    (hsp : ∀ i : Fin 3, 0 < image_spacing.nth i)
    (_hsz : ∀ i : Fin 3, 0 < image_size.nth i)
    (_hps : ∀ i : Fin 3, 0 < partition_size.nth i)
    (_hpt : ∀ i : Fin 3, 0 < partition_stride.nth i)
    (hbox : ∀ i : Fin 3,
      (derivedBoxSize image_spacing partition_size max_stride).nth i ≤
        (image_size.nth i : ℤ))
    (hstr1 : ∀ i : Fin 3,
      0 < (derivedStrideSize image_spacing partition_stride).nth i)
    (hstr2 : ∀ i : Fin 3,
      (derivedStrideSize image_spacing partition_stride).nth i ≤
        (derivedBoxSize image_spacing partition_size max_stride).nth i) :
    ∃ L, image_partition_by_fixed_size image_size image_spacing partition_size
        partition_stride max_stride = Except.ok L ∧
      ∀ i : Fin 3, ∀ v : ℤ, 0 ≤ v → v < (image_size.nth i : ℤ) →
        ∃ w ∈ L, w.start_voxel.nth i ≤ v ∧ v < w.end_voxel.nth i := by
  have hx0 : ¬(image_spacing.x = 0 ∨ image_spacing.y = 0 ∨ image_spacing.z = 0) := by
    push_neg
    exact ⟨ne_of_gt (hsp 0), ne_of_gt (hsp 1), ne_of_gt (hsp 2)⟩
  have hms0 : ¬(max_stride = 0) := Nat.pos_iff_ne_zero.mp hms
  have hst0 : ¬((derivedStrideSize image_spacing partition_stride).x = 0 ∨
      (derivedStrideSize image_spacing partition_stride).y = 0 ∨
      (derivedStrideSize image_spacing partition_stride).z = 0) := by
    push_neg
    exact ⟨ne_of_gt (hstr1 0), ne_of_gt (hstr1 1), ne_of_gt (hstr1 2)⟩
  rw [image_partition_by_fixed_size, if_neg hx0, if_neg hms0, if_neg hst0]
  refine ⟨_, rfl, ?_⟩
  have hny := numPartitionsAxis_pos image_size.y
    (derivedBoxSize image_spacing partition_size max_stride).y
    (derivedStrideSize image_spacing partition_stride).y (hstr1 1) (hbox 1)
  have hnz := numPartitionsAxis_pos image_size.z
    (derivedBoxSize image_spacing partition_size max_stride).z
    (derivedStrideSize image_spacing partition_stride).z (hstr1 2) (hbox 2)
  have hnx := numPartitionsAxis_pos image_size.x
    (derivedBoxSize image_spacing partition_size max_stride).x
    (derivedStrideSize image_spacing partition_stride).x (hstr1 0) (hbox 0)
  intro i v hv0 hvn
  fin_cases i
  · obtain ⟨k, hk, h1, h2⟩ := axis_cover image_size.x
      (derivedBoxSize image_spacing partition_size max_stride).x
      (derivedStrideSize image_spacing partition_stride).x
      (hstr1 0) (hstr2 0) (hbox 0) v hv0 hvn
    refine ⟨partitionWindow image_size
        (derivedBoxSize image_spacing partition_size max_stride)
        (derivedStrideSize image_spacing partition_stride) k 0 0, ?_, h1, h2⟩
    apply List.mem_flatMap.mpr
    exact ⟨k, List.mem_range.mpr (by omega), List.mem_flatMap.mpr
      ⟨0, List.mem_range.mpr (by omega), List.mem_map.mpr
        ⟨0, List.mem_range.mpr (by omega), rfl⟩⟩⟩
  · obtain ⟨k, hk, h1, h2⟩ := axis_cover image_size.y
      (derivedBoxSize image_spacing partition_size max_stride).y
      (derivedStrideSize image_spacing partition_stride).y
      (hstr1 1) (hstr2 1) (hbox 1) v hv0 hvn
    refine ⟨partitionWindow image_size
        (derivedBoxSize image_spacing partition_size max_stride)
        (derivedStrideSize image_spacing partition_stride) 0 k 0, ?_, h1, h2⟩
    apply List.mem_flatMap.mpr
    exact ⟨0, List.mem_range.mpr (by omega), List.mem_flatMap.mpr
      ⟨k, List.mem_range.mpr (by omega), List.mem_map.mpr
        ⟨0, List.mem_range.mpr (by omega), rfl⟩⟩⟩
  · obtain ⟨k, hk, h1, h2⟩ := axis_cover image_size.z
      (derivedBoxSize image_spacing partition_size max_stride).z
      (derivedStrideSize image_spacing partition_stride).z
      (hstr1 2) (hstr2 2) (hbox 2) v hv0 hvn
    refine ⟨partitionWindow image_size
        (derivedBoxSize image_spacing partition_size max_stride)
        (derivedStrideSize image_spacing partition_stride) 0 0 k, ?_, h1, h2⟩
    apply List.mem_flatMap.mpr
    exact ⟨0, List.mem_range.mpr (by omega), List.mem_flatMap.mpr
      ⟨0, List.mem_range.mpr (by omega), List.mem_map.mpr
        ⟨k, List.mem_range.mpr (by omega), rfl⟩⟩⟩

/-- Claim C1, witness: the coverage theorem applied to a 4x4x4 grid, unit
spacing, physical tile size 2, physical stride 2, `max_stride = 2`. -/
theorem C1_coverage_witness :
    (∀ i : Fin 3, 0 < ((⟨1,1,1⟩ : V3 ℚ)).nth i) ∧
    (∃ L, image_partition_by_fixed_size ⟨4,4,4⟩ ⟨1,1,1⟩ ⟨2,2,2⟩ ⟨2,2,2⟩ 2 =
        Except.ok L ∧
      ∀ i : Fin 3, ∀ v : ℤ, 0 ≤ v → v < ((⟨4,4,4⟩ : V3 ℕ).nth i : ℤ) →
        ∃ w ∈ L, w.start_voxel.nth i ≤ v ∧ v < w.end_voxel.nth i) :=
  ⟨by intro i; fin_cases i <;> norm_num [V3.nth],
   C1_coverage ⟨4,4,4⟩ ⟨1,1,1⟩ ⟨2,2,2⟩ ⟨2,2,2⟩ 2 (by norm_num)
     (by intro i; fin_cases i <;> norm_num [V3.nth])
     (by intro i; fin_cases i <;> norm_num [V3.nth])
     (by intro i; fin_cases i <;> norm_num [V3.nth])
     (by intro i; fin_cases i <;> norm_num [V3.nth])
     (by rw [derivedBox_unit2]; decide)
     (by rw [derivedStride_unit2]; decide)
     (by rw [derivedBox_unit2, derivedStride_unit2]; decide)⟩

/-- Claim C2, counterexample: on the 100x100x100 grid with 1 mm spacing,
tile physical size and stride 51.2 mm and `max_stride = 16`, the planner
returns eight windows (two per axis), not one: the voxel stride is 51 (it
is not rounded up to a multiple of `max_stride`), so
`ceil((100-64)/51 + 1) = 2` windows are produced per axis. -/
theorem C2_counterexample :
    (image_partition_by_fixed_size ⟨100,100,100⟩ ⟨1,1,1⟩ ⟨51.2,51.2,51.2⟩
        ⟨51.2,51.2,51.2⟩ 16).map List.length = Except.ok 8 ∧ (8 : ℕ) ≠ 1 := by
  constructor
  · rw [partition_c2]
    rfl
  · decide

/-- Claim C2, amended: the derived voxel tile size is 64 per axis, the
derived voxel stride is 51 (not rounded to 64), and the planner returns
two windows per axis — `[0,64)` and the clamped `[36,100)` — eight in
total, which together cover every voxel index of the grid on every axis. -/
theorem C2_scenario :
    image_partition_by_fixed_size ⟨100,100,100⟩ ⟨1,1,1⟩ ⟨51.2,51.2,51.2⟩
      ⟨51.2,51.2,51.2⟩ 16 = Except.ok c2Windows ∧
    derivedBoxSize ⟨1,1,1⟩ ⟨51.2,51.2,51.2⟩ 16 = ⟨64,64,64⟩ ∧
    derivedStrideSize ⟨1,1,1⟩ ⟨51.2,51.2,51.2⟩ = ⟨51,51,51⟩ ∧
    (∀ i : Fin 3, ∀ v : Fin 100, ∃ w ∈ c2Windows,
      w.start_voxel.nth i ≤ (v : ℤ) ∧ (v : ℤ) < w.end_voxel.nth i) := by
  refine ⟨partition_c2, derivedBox_c2, derivedStride_c2, ?_⟩
  decide

/-- Claim C3: every returned window has extent equal, on every axis, to
the derived voxel tile size, which is an exact multiple of `max_stride`. -/
theorem C3_window_extent (image_size : V3 ℕ)
    (image_spacing partition_size partition_stride : V3 ℚ) (max_stride : ℕ)
    (L : List Window)
    (h : image_partition_by_fixed_size image_size image_spacing partition_size
      partition_stride max_stride = Except.ok L) :
    ∀ w ∈ L, ∀ i : Fin 3,
      w.end_voxel.nth i - w.start_voxel.nth i =
        (derivedBoxSize image_spacing partition_size max_stride).nth i ∧
      (max_stride : ℤ) ∣ (w.end_voxel.nth i - w.start_voxel.nth i) := by
  rw [image_partition_by_fixed_size] at h
  split at h
  · exact absurd h (by simp)
  split at h
  next => exact absurd h (by simp)
  next hms =>
  split at h
  · exact absurd h (by simp)
  have hms' : 0 < max_stride := Nat.pos_of_ne_zero hms
  injection h with hL
  subst hL
  intro w hw i
  simp only [List.mem_flatMap, List.mem_map, List.mem_range] at hw
  obtain ⟨ix, hix, iy, hiy, iz, hiz, rfl⟩ := hw
  have hdvd : ∀ b : ℤ, (max_stride : ℤ) ∣ roundUpToMultiple b max_stride :=
    fun b => (roundUpToMultiple_spec b max_stride hms').1
  fin_cases i
  · refine ⟨?_, ?_⟩
    · exact axisExtent image_size.x
        (derivedBoxSize image_spacing partition_size max_stride).x
        (derivedStrideSize image_spacing partition_stride).x ix
    · show (max_stride : ℤ) ∣
        (axisEnd image_size.x (derivedBoxSize image_spacing partition_size max_stride).x
          (derivedStrideSize image_spacing partition_stride).x ix -
         axisStart image_size.x (derivedBoxSize image_spacing partition_size max_stride).x
          (derivedStrideSize image_spacing partition_stride).x ix)
      rw [axisExtent]
      exact hdvd _
  · refine ⟨?_, ?_⟩
    · exact axisExtent image_size.y
        (derivedBoxSize image_spacing partition_size max_stride).y
        (derivedStrideSize image_spacing partition_stride).y iy
    · show (max_stride : ℤ) ∣
        (axisEnd image_size.y (derivedBoxSize image_spacing partition_size max_stride).y
          (derivedStrideSize image_spacing partition_stride).y iy -
         axisStart image_size.y (derivedBoxSize image_spacing partition_size max_stride).y
          (derivedStrideSize image_spacing partition_stride).y iy)
      rw [axisExtent]
      exact hdvd _
  · refine ⟨?_, ?_⟩
    · exact axisExtent image_size.z
        (derivedBoxSize image_spacing partition_size max_stride).z
        (derivedStrideSize image_spacing partition_stride).z iz
    · show (max_stride : ℤ) ∣
        (axisEnd image_size.z (derivedBoxSize image_spacing partition_size max_stride).z
          (derivedStrideSize image_spacing partition_stride).z iz -
         axisStart image_size.z (derivedBoxSize image_spacing partition_size max_stride).z
          (derivedStrideSize image_spacing partition_stride).z iz)
      rw [axisExtent]
      exact hdvd _

/-- Claim C3, witness: extent and divisibility of the first window of the
planner's output on a 4x4x4 grid with tile size 2 and `max_stride = 2`. -/
theorem C3_window_extent_witness :
    (⟨⟨0,0,0⟩, ⟨2,2,2⟩⟩ : Window).end_voxel.nth 0 -
      (⟨⟨0,0,0⟩, ⟨2,2,2⟩⟩ : Window).start_voxel.nth 0 =
      (derivedBoxSize ⟨1,1,1⟩ ⟨2,2,2⟩ 2).nth 0 ∧
    ((2 : ℕ) : ℤ) ∣ ((⟨⟨0,0,0⟩, ⟨2,2,2⟩⟩ : Window).end_voxel.nth 0 -
      (⟨⟨0,0,0⟩, ⟨2,2,2⟩⟩ : Window).start_voxel.nth 0) :=
  C3_window_extent ⟨4,4,4⟩ ⟨1,1,1⟩ ⟨2,2,2⟩ ⟨2,2,2⟩ 2
    [⟨⟨0,0,0⟩, ⟨2,2,2⟩⟩, ⟨⟨0,0,2⟩, ⟨2,2,4⟩⟩, ⟨⟨0,2,0⟩, ⟨2,4,2⟩⟩, ⟨⟨0,2,2⟩, ⟨2,4,4⟩⟩,
     ⟨⟨2,0,0⟩, ⟨4,2,2⟩⟩, ⟨⟨2,0,2⟩, ⟨4,2,4⟩⟩, ⟨⟨2,2,0⟩, ⟨4,4,2⟩⟩, ⟨⟨2,2,2⟩, ⟨4,4,4⟩⟩]
    partition_unit4 ⟨⟨0,0,0⟩, ⟨2,2,2⟩⟩ (by decide) 0

/-! ### Connected-component claims -/

/-- Claim C4, counterexample: a 1x1x1 volume whose single voxel carries
label 2, filtered with `labels = [2]`, yields voxel value 1 — not the
label's value 2 as claimed — because the source never multiplies
`labels[0]` onto the first binary mask. -/
theorem C4_counterexample :
    (pick_largest_connected_component ⟨⟨1,1,1⟩, fun _ => 2⟩ [2]).map
      (fun v => v.data ⟨0,0,0⟩) = Except.ok 1 ∧ (1 : ℤ) ≠ 2 :=
  ⟨rfl, by decide⟩

/-- Claim C4, amended: for pairwise-distinct labels, the first listed
label's largest 26-connected component is kept with value 1 (not the
label's value), every later listed label's largest component is kept with
that label's value, and every other voxel — including all labels not in
the list — is zeroed rather than carried over. -/
theorem C4_largest_component_filter (mask : LabelVol) (l0 : ℤ)
    (rest : List ℤ) (hnd : (l0 :: rest).Nodup) :
    ∃ v, pick_largest_connected_component mask (l0 :: rest) = Except.ok v ∧
      ∀ p : V3 ℤ,
        ((largest_cc_binary mask l0).data p = 1 → v.data p = 1) ∧
        (∀ l ∈ rest, (largest_cc_binary mask l).data p = 1 → v.data p = l) ∧
        (((largest_cc_binary mask l0).data p = 0 ∧
            ∀ l ∈ rest, (largest_cc_binary mask l).data p = 0) →
          v.data p = 0) := by
  obtain ⟨v, hv, hdata⟩ :=
    combineLabelMasks_data (fun label => largest_cc_binary mask label) l0 rest
  refine ⟨v, hv, ?_⟩
  intro p
  have hnd0 : l0 ∉ rest := (List.nodup_cons.mp hnd).1
  have hndr : rest.Nodup := (List.nodup_cons.mp hnd).2
  refine ⟨?_, ?_, ?_⟩
  · intro h1
    have hm0 : mask.data p = l0 := by
      rcases largest_cc_binary_spec mask l0 p with h | h
      · rw [h] at h1
        exact absurd h1 (by decide)
      · exact h.2.2
    rw [hdata p, h1]
    have hz : ∀ l ∈ rest, l * (largest_cc_binary mask l).data p = 0 := by
      intro l hl
      rcases largest_cc_binary_spec mask l p with h | h
      · rw [h, mul_zero]
      · have hll : l0 = l := hm0.symm.trans h.2.2
        rw [← hll] at hl
        exact absurd hl hnd0
    rw [map_sum_zero rest _ hz, add_zero]
  · intro l hl h1
    have hml : mask.data p = l := by
      rcases largest_cc_binary_spec mask l p with h | h
      · rw [h] at h1
        exact absurd h1 (by decide)
      · exact h.2.2
    have h0 : (largest_cc_binary mask l0).data p = 0 := by
      rcases largest_cc_binary_spec mask l0 p with h | h
      · exact h
      · have hll : l0 = l := h.2.2.symm.trans hml
        rw [← hll] at hl
        exact absurd hl hnd0
    rw [hdata p, h0, zero_add,
      map_sum_single rest _ l hl hndr ?_, h1, mul_one]
    intro x hx hxl
    rcases largest_cc_binary_spec mask x p with h | h
    · rw [h, mul_zero]
    · exact absurd (hml.symm.trans h.2.2).symm hxl
  · rintro ⟨h0, hz⟩
    rw [hdata p, h0, zero_add, map_sum_zero]
    intro x hx
    rw [hz x hx, mul_zero]

/-- Claim C4, witness: the amended theorem applied to a 1x1x1 volume of
label 2 and `labels = [1, 2]`. -/
theorem C4_largest_component_filter_witness :
    ((1 : ℤ) :: [2]).Nodup ∧
    (∃ v, pick_largest_connected_component ⟨⟨1,1,1⟩, fun _ => 2⟩
        ((1 : ℤ) :: [2]) = Except.ok v ∧
      ∀ p : V3 ℤ,
        ((largest_cc_binary ⟨⟨1,1,1⟩, fun _ => 2⟩ 1).data p = 1 →
          v.data p = 1) ∧
        (∀ l ∈ ([2] : List ℤ),
          (largest_cc_binary ⟨⟨1,1,1⟩, fun _ => 2⟩ l).data p = 1 →
            v.data p = l) ∧
        (((largest_cc_binary ⟨⟨1,1,1⟩, fun _ => 2⟩ 1).data p = 0 ∧
            ∀ l ∈ ([2] : List ℤ),
              (largest_cc_binary ⟨⟨1,1,1⟩, fun _ => 2⟩ l).data p = 0) →
          v.data p = 0)) :=
  ⟨by decide,
   C4_largest_component_filter ⟨⟨1,1,1⟩, fun _ => 2⟩ 1 [2] (by decide)⟩

/-- Claim C5, counterexample: a 1x1x1 volume whose single voxel carries
label 2, filtered with `labels = [2]` and `threshold = 0`, yields voxel
value 1, not the input value 2 — the min-size filter with threshold 0 is
not the identity. -/
theorem C5_counterexample :
    (remove_small_connected_component ⟨⟨1,1,1⟩, fun _ => 2⟩ [2] 0).map
      (fun v => v.data ⟨0,0,0⟩) = Except.ok 1 ∧ (1 : ℤ) ≠ 2 :=
  ⟨rfl, by decide⟩

/-- Claim C5, amended: with threshold 0 no component of any listed label
is removed, but the output is not the input volume: a voxel of the first
listed label gets value 1, a voxel of a later listed label keeps its
value, and every other voxel (background and unlisted labels) is zeroed. -/
theorem C5_threshold_zero (mask : LabelVol) (l0 : ℤ) (rest : List ℤ)
    (hnd : (l0 :: rest).Nodup) :
    ∃ v, remove_small_connected_component mask (l0 :: rest) 0 =
        Except.ok v ∧
      ∀ p : V3 ℤ, inBounds mask.size p = true →
        v.data p = if mask.data p = l0 then 1
          else if mask.data p ∈ rest then mask.data p else 0 := by
  obtain ⟨v, hv, hdata⟩ :=
    combineLabelMasks_data (fun label => min_size_binary mask label 0) l0 rest
  refine ⟨v, hv, ?_⟩
  intro p hb
  have hbin : ∀ l : ℤ, (min_size_binary mask l 0).data p =
      if mask.data p = l then 1 else 0 := by
    intro l
    rw [min_size_binary_zero]
    unfold maskFg
    rw [hb]
    by_cases hm : mask.data p = l
    · simp [hm]
    · simp [hm]
  rw [hdata p, hbin l0]
  by_cases hm0 : mask.data p = l0
  · rw [if_pos hm0, if_pos hm0]
    have hz : ∀ x ∈ rest, x * (min_size_binary mask x 0).data p = 0 := by
      intro x hx
      have hne : ¬(mask.data p = x) := by
        intro he
        have hxl : x = l0 := he.symm.trans hm0
        rw [hxl] at hx
        exact (List.nodup_cons.mp hnd).1 hx
      rw [hbin x, if_neg hne, mul_zero]
    rw [map_sum_zero _ _ hz, add_zero]
  · rw [if_neg hm0, if_neg hm0, zero_add]
    by_cases hmr : mask.data p ∈ rest
    · rw [if_pos hmr,
        map_sum_single rest _ (mask.data p) hmr (List.nodup_cons.mp hnd).2 ?_,
        hbin, if_pos rfl, mul_one]
      intro x hx hxne
      rw [hbin x, if_neg (fun he => hxne he.symm), mul_zero]
    · rw [if_neg hmr, map_sum_zero]
      intro x hx
      rw [hbin x, if_neg (fun he => hmr (by rw [he]; exact hx)), mul_zero]

/-- Claim C5, witness: the amended theorem applied to a 1x1x1 volume of
label 2 and `labels = [1, 2]`. -/
theorem C5_threshold_zero_witness :
    ((1 : ℤ) :: [2]).Nodup ∧
    (∃ v, remove_small_connected_component ⟨⟨1,1,1⟩, fun _ => 2⟩
        ((1 : ℤ) :: [2]) 0 = Except.ok v ∧
      ∀ p : V3 ℤ, inBounds (⟨1,1,1⟩ : V3 ℕ) p = true →
        v.data p = if (2 : ℤ) = 1 then 1
          else if (2 : ℤ) ∈ ([2] : List ℤ) then (2 : ℤ) else 0) :=
  ⟨by decide,
   C5_threshold_zero ⟨⟨1,1,1⟩, fun _ => 2⟩ 1 [2] (by decide)⟩

/-- Claim C9: with an empty foreground-label list both filter functions
do fail, but through the incidental out-of-range list access
`largest_cc_binaries[0]` (Python `IndexError`), not through the designated
`EmptyLabelSet` error of the spec's taxonomy. -/
theorem C9_empty_label_failure (mask : LabelVol) (threshold : ℕ) :
    pick_largest_connected_component mask [] = Except.error PyErr.indexError ∧
    remove_small_connected_component mask [] threshold =
      Except.error PyErr.indexError ∧
    PyErr.indexError ≠ PyErr.emptyLabelSet :=
  ⟨rfl, rfl, by decide⟩

/-- Claim C9, counterexample: at a concrete volume and empty label list,
both functions return the index error, which is not the designated
`EmptyLabelSet` error. -/
theorem C9_counterexample :
    pick_largest_connected_component ⟨⟨1,1,1⟩, fun _ => 0⟩ [] =
      Except.error PyErr.indexError ∧
    remove_small_connected_component ⟨⟨1,1,1⟩, fun _ => 0⟩ [] 5 =
      Except.error PyErr.indexError ∧
    PyErr.indexError ≠ PyErr.emptyLabelSet :=
  ⟨rfl, rfl, by decide⟩

/-! ### Resampling and accumulation helper lemmas -/

/-- numpy index normalization is the identity on indices within
`[0, n]`. -/
theorem npNormIdx_eq (n : ℕ) (i : ℤ) (h0 : 0 ≤ i) (h1 : i ≤ (n : ℤ)) :
    npNormIdx n i = i := by
  unfold npNormIdx
  rw [if_neg (by omega)]
  omega

/-- Inside a well-formed window, `add_image_value` adds the value. -/
theorem add_image_value_inside (image : ScoreImg) (s e : V3 ℤ) (v : ℚ)
    (hw : windowInImage image.size s e) (p : V3 ℤ) (hp : insideWindow s e p) :
    (add_image_value image s e v).data p = image.data p + v := by
  unfold add_image_value
  dsimp only
  rw [if_pos]
  refine ⟨?_, ?_, ?_, ?_, ?_, ?_⟩
  · rw [npNormIdx_eq image.size.x s.x (hw 0).1 (le_trans (hw 0).2.1 (hw 0).2.2)]
    exact (hp 0).1
  · rw [npNormIdx_eq image.size.x e.x (le_trans (hw 0).1 (hw 0).2.1) (hw 0).2.2]
    exact (hp 0).2
  · rw [npNormIdx_eq image.size.y s.y (hw 1).1 (le_trans (hw 1).2.1 (hw 1).2.2)]
    exact (hp 1).1
  · rw [npNormIdx_eq image.size.y e.y (le_trans (hw 1).1 (hw 1).2.1) (hw 1).2.2]
    exact (hp 1).2
  · rw [npNormIdx_eq image.size.z s.z (hw 2).1 (le_trans (hw 2).2.1 (hw 2).2.2)]
    exact (hp 2).1
  · rw [npNormIdx_eq image.size.z e.z (le_trans (hw 2).1 (hw 2).2.1) (hw 2).2.2]
    exact (hp 2).2

/-! ### Resampling claims -/

/-- Claim C7: for positive target spacing, positive `max_stride` and a
supported interpolation mode, `resample_spacing` preserves the origin and
direction exactly, sets the target spacing, and produces, per axis, the
least multiple of `max_stride` that is at least
`int(size*spacing/target + 0.5)` (i.e. rounds up exactly when not already
a multiple). -/
theorem C7_resample_spacing_frame (image : ImgFrame)
    (resampled_spacing : V3 ℚ) (max_stride : ℕ) (interp_method : String)
    (hsp : ∀ i : Fin 3, 0 < resampled_spacing.nth i)
    (hms : 0 < max_stride)
    (hin : interp_method = "NN" ∨ interp_method = "LINEAR") :
    ∃ out, resample_spacing image resampled_spacing max_stride interp_method =
        Except.ok out ∧
      out.origin = image.origin ∧
      out.direction = image.direction ∧
      out.spacing = resampled_spacing ∧
      ∀ i : Fin 3,
        (max_stride : ℤ) ∣ out.size.nth i ∧
        pyInt ((image.size.nth i : ℚ) * image.spacing.nth i /
          resampled_spacing.nth i + 1/2) ≤ out.size.nth i ∧
        out.size.nth i < pyInt ((image.size.nth i : ℚ) * image.spacing.nth i /
          resampled_spacing.nth i + 1/2) + max_stride := by
  rw [resample_spacing,
    if_neg (by push_neg; exact ⟨ne_of_gt (hsp 0), ne_of_gt (hsp 1), ne_of_gt (hsp 2)⟩),
    if_neg (Nat.pos_iff_ne_zero.mp hms), if_pos (Or.symm hin)]
  refine ⟨_, rfl, rfl, rfl, rfl, ?_⟩
  intro i
  fin_cases i
  · exact roundUpToMultiple_spec
      (pyInt ((image.size.x : ℚ) * image.spacing.x / resampled_spacing.x + 1/2))
      max_stride hms
  · exact roundUpToMultiple_spec
      (pyInt ((image.size.y : ℚ) * image.spacing.y / resampled_spacing.y + 1/2))
      max_stride hms
  · exact roundUpToMultiple_spec
      (pyInt ((image.size.z : ℚ) * image.spacing.z / resampled_spacing.z + 1/2))
      max_stride hms

/-- Claim C7, witness: a 10x10x10 unit-spacing image resampled to spacing
2 with `max_stride = 4` and nearest-neighbor interpolation. -/
theorem C7_resample_spacing_frame_witness :
    ∃ out, resample_spacing
        ⟨⟨10,10,10⟩, ⟨1,1,1⟩, ⟨0,0,0⟩, [1,0,0,0,1,0,0,0,1]⟩ ⟨2,2,2⟩ 4 "NN" =
        Except.ok out ∧
      out.origin = (⟨⟨10,10,10⟩, ⟨1,1,1⟩, ⟨0,0,0⟩,
        [1,0,0,0,1,0,0,0,1]⟩ : ImgFrame).origin ∧
      out.direction = (⟨⟨10,10,10⟩, ⟨1,1,1⟩, ⟨0,0,0⟩,
        [1,0,0,0,1,0,0,0,1]⟩ : ImgFrame).direction ∧
      out.spacing = (⟨2,2,2⟩ : V3 ℚ) ∧
      ∀ i : Fin 3,
        ((4 : ℕ) : ℤ) ∣ out.size.nth i ∧
        pyInt (((⟨⟨10,10,10⟩, ⟨1,1,1⟩, ⟨0,0,0⟩,
            [1,0,0,0,1,0,0,0,1]⟩ : ImgFrame).size.nth i : ℚ) *
          (⟨⟨10,10,10⟩, ⟨1,1,1⟩, ⟨0,0,0⟩,
            [1,0,0,0,1,0,0,0,1]⟩ : ImgFrame).spacing.nth i /
          (⟨2,2,2⟩ : V3 ℚ).nth i + 1/2) ≤ out.size.nth i ∧
        out.size.nth i < pyInt (((⟨⟨10,10,10⟩, ⟨1,1,1⟩, ⟨0,0,0⟩,
            [1,0,0,0,1,0,0,0,1]⟩ : ImgFrame).size.nth i : ℚ) *
          (⟨⟨10,10,10⟩, ⟨1,1,1⟩, ⟨0,0,0⟩,
            [1,0,0,0,1,0,0,0,1]⟩ : ImgFrame).spacing.nth i /
          (⟨2,2,2⟩ : V3 ℚ).nth i + 1/2) + 4 :=
  C7_resample_spacing_frame ⟨⟨10,10,10⟩, ⟨1,1,1⟩, ⟨0,0,0⟩, [1,0,0,0,1,0,0,0,1]⟩
    ⟨2,2,2⟩ 4 "NN"
    (by intro i; fin_cases i <;> norm_num [V3.nth]) (by norm_num) (Or.inl rfl)

/-- Claim C8: `crop_image`, `resample` and `resample_spacing` raise the
unsupported-interpolation `ValueError` exactly when the interpolation mode
is outside `{NN, LINEAR}` (for `resample_spacing`, with non-zero target
spacing and `max_stride`, which otherwise fail earlier with a division
error, not an interpolation error). -/
theorem C8_interpolation_errors (image reference : ImgFrame)
    (cropping_center : V3 ℚ) (cropping_size : V3 ℤ) (cropping_spacing : V3 ℚ)
    (resampled_spacing : V3 ℚ) (max_stride : ℕ) (interp_method : String)
    (hsp : ∀ i : Fin 3, resampled_spacing.nth i ≠ 0) (hms : max_stride ≠ 0) :
    (crop_image image cropping_center cropping_size cropping_spacing
        interp_method =
        Except.error (PyErr.valueError "Unsupported interpolation type.") ↔
      ¬(interp_method = "NN" ∨ interp_method = "LINEAR")) ∧
    (resample image reference interp_method =
        Except.error (PyErr.valueError "Unsupported interpolation type.") ↔
      ¬(interp_method = "NN" ∨ interp_method = "LINEAR")) ∧
    (resample_spacing image resampled_spacing max_stride interp_method =
        Except.error (PyErr.valueError "Unsupported interpolation type.") ↔
      ¬(interp_method = "NN" ∨ interp_method = "LINEAR")) := by
  have hspz : ¬(resampled_spacing.x = 0 ∨ resampled_spacing.y = 0 ∨
      resampled_spacing.z = 0) := by
    push_neg
    exact ⟨hsp 0, hsp 1, hsp 2⟩
  by_cases h : interp_method = "LINEAR" ∨ interp_method = "NN"
  · refine ⟨?_, ?_, ?_⟩
    · rw [crop_image, if_pos h]
      exact iff_of_false (by simp) (not_not_intro (Or.symm h))
    · rw [resample, if_pos h]
      exact iff_of_false (by simp) (not_not_intro (Or.symm h))
    · rw [resample_spacing, if_neg hspz, if_neg hms, if_pos h]
      exact iff_of_false (by simp) (not_not_intro (Or.symm h))
  · refine ⟨?_, ?_, ?_⟩
    · rw [crop_image, if_neg h]
      exact iff_of_true rfl (fun hh => h (Or.symm hh))
    · rw [resample, if_neg h]
      exact iff_of_true rfl (fun hh => h (Or.symm hh))
    · rw [resample_spacing, if_neg hspz, if_neg hms, if_neg h]
      exact iff_of_true rfl (fun hh => h (Or.symm hh))

/-- Claim C8, witness: the error characterization at a concrete image
and the unsupported mode `"CUBIC"`. -/
theorem C8_interpolation_errors_witness :
    (crop_image ⟨⟨10,10,10⟩, ⟨1,1,1⟩, ⟨0,0,0⟩, [1,0,0,0,1,0,0,0,1]⟩
        ⟨0,0,0⟩ ⟨4,4,4⟩ ⟨1,1,1⟩ "CUBIC" =
        Except.error (PyErr.valueError "Unsupported interpolation type.") ↔
      ¬(("CUBIC" : String) = "NN" ∨ ("CUBIC" : String) = "LINEAR")) ∧
    (resample ⟨⟨10,10,10⟩, ⟨1,1,1⟩, ⟨0,0,0⟩, [1,0,0,0,1,0,0,0,1]⟩
        ⟨⟨10,10,10⟩, ⟨1,1,1⟩, ⟨0,0,0⟩, [1,0,0,0,1,0,0,0,1]⟩ "CUBIC" =
        Except.error (PyErr.valueError "Unsupported interpolation type.") ↔
      ¬(("CUBIC" : String) = "NN" ∨ ("CUBIC" : String) = "LINEAR")) ∧
    (resample_spacing ⟨⟨10,10,10⟩, ⟨1,1,1⟩, ⟨0,0,0⟩, [1,0,0,0,1,0,0,0,1]⟩
        ⟨2,2,2⟩ 4 "CUBIC" =
        Except.error (PyErr.valueError "Unsupported interpolation type.") ↔
      ¬(("CUBIC" : String) = "NN" ∨ ("CUBIC" : String) = "LINEAR")) :=
  C8_interpolation_errors ⟨⟨10,10,10⟩, ⟨1,1,1⟩, ⟨0,0,0⟩, [1,0,0,0,1,0,0,0,1]⟩
    ⟨⟨10,10,10⟩, ⟨1,1,1⟩, ⟨0,0,0⟩, [1,0,0,0,1,0,0,0,1]⟩
    ⟨0,0,0⟩ ⟨4,4,4⟩ ⟨1,1,1⟩ ⟨2,2,2⟩ 4 "CUBIC"
    (by intro i; fin_cases i <;> norm_num [V3.nth]) (by norm_num)

/-! ### Accumulation claims -/

/-- Claim C6: pasting a score into the buffer over a well-formed window
adds the value at every voxel of the window, so the contributions of two
overlapping windows sum (each overlap voxel ends at the initial value
plus both scores), never overwrite. -/
theorem C6_additive_paste (image : ScoreImg) (s1 e1 s2 e2 : V3 ℤ)
    (v1 v2 : ℚ)
    (h1 : windowInImage image.size s1 e1)
    (h2 : windowInImage image.size s2 e2) :
    (∀ p : V3 ℤ, insideWindow s1 e1 p →
      (add_image_value image s1 e1 v1).data p = image.data p + v1) ∧
    (∀ p : V3 ℤ, insideWindow s1 e1 p → insideWindow s2 e2 p →
      (add_image_value (add_image_value image s1 e1 v1) s2 e2 v2).data p =
        image.data p + v1 + v2) := by
  refine ⟨fun p hp => add_image_value_inside image s1 e1 v1 h1 p hp, ?_⟩
  intro p hp1 hp2
  rw [add_image_value_inside (add_image_value image s1 e1 v1) s2 e2 v2 h2 p hp2,
    add_image_value_inside image s1 e1 v1 h1 p hp1]

/-- Claim C6, witness: two unit pastes over the full window of a 2x2x2
zero buffer. -/
theorem C6_additive_paste_witness :
    windowInImage (⟨2,2,2⟩ : V3 ℕ) ⟨0,0,0⟩ ⟨2,2,2⟩ ∧
    ((∀ p : V3 ℤ, insideWindow ⟨0,0,0⟩ ⟨2,2,2⟩ p →
      (add_image_value ⟨⟨2,2,2⟩, ⟨1,1,1⟩, ⟨0,0,0⟩, [1,0,0,0,1,0,0,0,1],
          fun _ => 0⟩ ⟨0,0,0⟩ ⟨2,2,2⟩ 1).data p =
        (⟨⟨2,2,2⟩, ⟨1,1,1⟩, ⟨0,0,0⟩, [1,0,0,0,1,0,0,0,1],
          fun _ => 0⟩ : ScoreImg).data p + 1) ∧
    (∀ p : V3 ℤ, insideWindow ⟨0,0,0⟩ ⟨2,2,2⟩ p →
        insideWindow ⟨1,1,1⟩ ⟨2,2,2⟩ p →
      (add_image_value (add_image_value ⟨⟨2,2,2⟩, ⟨1,1,1⟩, ⟨0,0,0⟩,
          [1,0,0,0,1,0,0,0,1], fun _ => 0⟩ ⟨0,0,0⟩ ⟨2,2,2⟩ 1)
          ⟨1,1,1⟩ ⟨2,2,2⟩ 2).data p =
        (⟨⟨2,2,2⟩, ⟨1,1,1⟩, ⟨0,0,0⟩, [1,0,0,0,1,0,0,0,1],
          fun _ => 0⟩ : ScoreImg).data p + 1 + 2)) :=
  ⟨by decide,
   C6_additive_paste ⟨⟨2,2,2⟩, ⟨1,1,1⟩, ⟨0,0,0⟩, [1,0,0,0,1,0,0,0,1],
       fun _ => 0⟩ ⟨0,0,0⟩ ⟨2,2,2⟩ ⟨1,1,1⟩ ⟨2,2,2⟩ 1 2
     (by decide) (by decide)⟩

/-- Claim C10: for a window inside the image, `add_image_value` leaves
every voxel outside the window unchanged and preserves the image's size,
spacing, origin and direction. -/
theorem C10_paste_frame (image : ScoreImg) (s e : V3 ℤ) (v : ℚ)
    (hw : windowInImage image.size s e) :
    (∀ p : V3 ℤ, ¬ insideWindow s e p →
      (add_image_value image s e v).data p = image.data p) ∧
    (add_image_value image s e v).size = image.size ∧
    (add_image_value image s e v).spacing = image.spacing ∧
    (add_image_value image s e v).origin = image.origin ∧
    (add_image_value image s e v).direction = image.direction := by
  refine ⟨?_, rfl, rfl, rfl, rfl⟩
  intro p hp
  unfold add_image_value
  dsimp only
  rw [if_neg]
  intro hc
  obtain ⟨c1, c2, c3, c4, c5, c6⟩ := hc
  rw [npNormIdx_eq image.size.x s.x (hw 0).1 (le_trans (hw 0).2.1 (hw 0).2.2)] at c1
  rw [npNormIdx_eq image.size.x e.x (le_trans (hw 0).1 (hw 0).2.1) (hw 0).2.2] at c2
  rw [npNormIdx_eq image.size.y s.y (hw 1).1 (le_trans (hw 1).2.1 (hw 1).2.2)] at c3
  rw [npNormIdx_eq image.size.y e.y (le_trans (hw 1).1 (hw 1).2.1) (hw 1).2.2] at c4
  rw [npNormIdx_eq image.size.z s.z (hw 2).1 (le_trans (hw 2).2.1 (hw 2).2.2)] at c5
  rw [npNormIdx_eq image.size.z e.z (le_trans (hw 2).1 (hw 2).2.1) (hw 2).2.2] at c6
  apply hp
  intro i
  fin_cases i
  · exact ⟨c1, c2⟩
  · exact ⟨c3, c4⟩
  · exact ⟨c5, c6⟩

/-- Claim C10, witness: pasting over the window `[0,1)^3` of a 2x2x2
zero buffer leaves the voxel `(1,1,1)` unchanged and preserves the
frame. -/
theorem C10_paste_frame_witness :
    windowInImage (⟨2,2,2⟩ : V3 ℕ) ⟨0,0,0⟩ ⟨1,1,1⟩ ∧
    ((∀ p : V3 ℤ, ¬ insideWindow ⟨0,0,0⟩ ⟨1,1,1⟩ p →
      (add_image_value ⟨⟨2,2,2⟩, ⟨1,1,1⟩, ⟨0,0,0⟩, [1,0,0,0,1,0,0,0,1],
          fun _ => 0⟩ ⟨0,0,0⟩ ⟨1,1,1⟩ 3).data p =
        (⟨⟨2,2,2⟩, ⟨1,1,1⟩, ⟨0,0,0⟩, [1,0,0,0,1,0,0,0,1],
          fun _ => 0⟩ : ScoreImg).data p) ∧
    (add_image_value ⟨⟨2,2,2⟩, ⟨1,1,1⟩, ⟨0,0,0⟩, [1,0,0,0,1,0,0,0,1],
        fun _ => 0⟩ ⟨0,0,0⟩ ⟨1,1,1⟩ 3).size = (⟨2,2,2⟩ : V3 ℕ) ∧
    (add_image_value ⟨⟨2,2,2⟩, ⟨1,1,1⟩, ⟨0,0,0⟩, [1,0,0,0,1,0,0,0,1],
        fun _ => 0⟩ ⟨0,0,0⟩ ⟨1,1,1⟩ 3).spacing = (⟨1,1,1⟩ : V3 ℚ) ∧
    (add_image_value ⟨⟨2,2,2⟩, ⟨1,1,1⟩, ⟨0,0,0⟩, [1,0,0,0,1,0,0,0,1],
        fun _ => 0⟩ ⟨0,0,0⟩ ⟨1,1,1⟩ 3).origin = (⟨0,0,0⟩ : V3 ℚ) ∧
    (add_image_value ⟨⟨2,2,2⟩, ⟨1,1,1⟩, ⟨0,0,0⟩, [1,0,0,0,1,0,0,0,1],
        fun _ => 0⟩ ⟨0,0,0⟩ ⟨1,1,1⟩ 3).direction =
      ([1,0,0,0,1,0,0,0,1] : List ℚ)) :=
  ⟨by decide,
   C10_paste_frame ⟨⟨2,2,2⟩, ⟨1,1,1⟩, ⟨0,0,0⟩, [1,0,0,0,1,0,0,0,1],
       fun _ => 0⟩ ⟨0,0,0⟩ ⟨1,1,1⟩ 3 (by decide)⟩

end MedSeg
